import Mathlib

/-!
Verification of the metrics computation layer of the machine-efficiency
tracker (src/utils/calculations.py, class EfficiencyCalculator).

Numeric values (`duration_minutes`, `downtime_minutes`, percentages, hours)
are modelled as rationals; `production_count` is an integer, as in the
database schema.  Python's `round(x, 2)` (round half to even at two decimal
places) is modelled by `round2` below.  A pandas DataFrame of rows is
modelled as a `List` of records; the failures DataFrame is additionally
modelled together with its optional derived `date` column, because
`calculate_daily_failure_rate` assigns to that column on its input frame.
-/

namespace MachineTracker

/-- A status-log row (table machine_logs): status is one of the status
strings, `duration_minutes` a real, `production_count` an integer. -/
structure StatusLog where
  machine_id : String
  status : String
  timestamp : String
  duration_minutes : ℚ
  production_count : ℤ
  notes : String
  deriving DecidableEq, Repr

/-- A failure-log row (table failure_logs). -/
structure FailureLog where
  machine_id : String
  failure_type : String
  timestamp : String
  downtime_minutes : ℚ
  resolution : String
  deriving DecidableEq, Repr

/-- The failures DataFrame: its rows plus the optional derived `date`
column (absent on frames fresh from the store; `calculate_daily_failure_rate`
assigns it). -/
structure FailuresDF where
  rows : List FailureLog
  dateCol : Option (List String)
  deriving DecidableEq, Repr

/-- Round half to even to an integer, the rounding Python's builtin
`round` applies: ties (fractional part exactly 1/2) go to the even
neighbour, everything else to the nearest integer. -/
def rhe (q : ℚ) : ℤ :=
  if q - ⌊q⌋ = 1/2 then (if 2 ∣ ⌊q⌋ then ⌊q⌋ else ⌊q⌋ + 1) else round q

/-- Python's `round(q, 2)`: round half to even at two decimal places. -/
def round2 (q : ℚ) : ℚ := (rhe (q * 100) : ℚ) / 100

/-- `logs_df['duration_minutes'].sum()`. -/
def total_time (logs : List StatusLog) : ℚ :=
  (logs.map (fun r => r.duration_minutes)).sum

/-- `logs_df[logs_df['status'] == 'RUNNING']['duration_minutes'].sum()`. -/
def running_time (logs : List StatusLog) : ℚ :=
  ((logs.filter (fun r => r.status == "RUNNING")).map (fun r => r.duration_minutes)).sum

/-- `logs_df[logs_df['status'] == 'IDLE']['duration_minutes'].sum()`. -/
def idle_time (logs : List StatusLog) : ℚ :=
  ((logs.filter (fun r => r.status == "IDLE")).map (fun r => r.duration_minutes)).sum

/-- `logs_df[logs_df['status'].isin(['FAILED', 'MAINTENANCE'])]['duration_minutes'].sum()`. -/
def downtime_time (logs : List StatusLog) : ℚ :=
  ((logs.filter (fun r => r.status == "FAILED" || r.status == "MAINTENANCE")).map
    (fun r => r.duration_minutes)).sum

/-- EfficiencyCalculator.calculate_running_time_percentage. -/
def calculate_running_time_percentage (logs : List StatusLog) : ℚ :=
  if logs.isEmpty then 0
  else if total_time logs = 0 then 0
  else running_time logs / total_time logs * 100

/-- EfficiencyCalculator.calculate_idle_time_percentage. -/
def calculate_idle_time_percentage (logs : List StatusLog) : ℚ :=
  if logs.isEmpty then 0
  else if total_time logs = 0 then 0
  else idle_time logs / total_time logs * 100

/-- EfficiencyCalculator.calculate_downtime_percentage. -/
def calculate_downtime_percentage (logs : List StatusLog) : ℚ :=
  if logs.isEmpty then 0
  else if total_time logs = 0 then 0
  else downtime_time logs / total_time logs * 100

/-- Result shape of calculate_daily_failure_rate. -/
structure FailureRateStats where
  avg_failures_per_day : ℚ
  total_failures : ℕ
  max_failures_per_day : ℕ
  days_tracked : ℕ
  deriving DecidableEq, Repr

/-- `pd.to_datetime(ts).dt.date` for the ISO-formatted timestamps this
system stores (YYYY-MM-DD HH:MM:SS): the date is the first ten characters. -/
def dateOf (ts : String) : String := ts.take 10

/-- EfficiencyCalculator.calculate_daily_failure_rate.  The Python function
assigns `failures_df['date'] = pd.to_datetime(failures_df['timestamp']).dt.date`
on its input frame before grouping, so the embedding is a state transformer:
it returns the statistics together with the frame as it is left after the
call (the `date` column filled in, unless the early empty-return fires). -/
def calculate_daily_failure_rate (df : FailuresDF) : FailureRateStats × FailuresDF :=
  if df.rows.isEmpty then
    (⟨0, 0, 0, 0⟩, df)
  else
    let dates := df.rows.map (fun r => dateOf r.timestamp)
    let keys := dates.dedup
    let counts := keys.map (fun k => dates.count k)
    (⟨round2 ((counts.sum : ℚ) / (counts.length : ℚ)),
      df.rows.length,
      counts.foldr max 0,
      keys.length⟩,
     { df with dateCol := some dates })

/-- Result shape of calculate_productivity. -/
structure ProductivityStats where
  total_production : ℤ
  production_per_hour : ℚ
  total_runtime_hours : ℚ
  total_runtime_minutes : ℚ
  deriving DecidableEq, Repr

/-- Sum of production_count over the RUNNING rows. -/
def running_production (logs : List StatusLog) : ℤ :=
  ((logs.filter (fun r => r.status == "RUNNING")).map (fun r => r.production_count)).sum

/-- EfficiencyCalculator.calculate_productivity. -/
def calculate_productivity (logs : List StatusLog) : ProductivityStats :=
  if logs.isEmpty then ⟨0, 0, 0, 0⟩
  else
    let total_production := running_production logs
    let total_runtime_minutes := running_time logs
    let total_runtime_hours := total_runtime_minutes / 60
    let production_per_hour :=
      if total_runtime_hours > 0 then (total_production : ℚ) / total_runtime_hours else 0
    ⟨total_production,
     round2 production_per_hour,
     round2 total_runtime_hours,
     round2 total_runtime_minutes⟩

/-- Result shape of calculate_oee. -/
structure OEEStats where
  availability : ℚ
  performance : ℚ
  quality : ℚ
  oee : ℚ
  deriving DecidableEq, Repr

/-- `failures_df['downtime_minutes'].sum()` (0 for the empty frame). -/
def total_downtime (failures : List FailureLog) : ℚ :=
  (failures.map (fun r => r.downtime_minutes)).sum

/-- Raw (pre-cap, pre-round) availability inside calculate_oee:
`(planned_production_time - total_downtime) / planned_production_time * 100`,
0 when the planned time is not positive. -/
def availability_raw (failures : List FailureLog) (planned_production_time : ℚ) : ℚ :=
  if planned_production_time > 0 then
    (planned_production_time - total_downtime failures) / planned_production_time * 100
  else 0

/-- Raw (pre-cap, pre-round) performance inside calculate_oee. -/
def performance_raw (logs : List StatusLog) (failures : List FailureLog)
    (ideal_cycle_time planned_production_time : ℚ) : ℚ :=
  let operating_time := planned_production_time - total_downtime failures
  let target_production := if ideal_cycle_time > 0 then operating_time / ideal_cycle_time else 0
  if target_production > 0 then (running_production logs : ℚ) / target_production * 100 else 0

/-- EfficiencyCalculator.calculate_oee. -/
def calculate_oee (logs : List StatusLog) (failures : List FailureLog)
    (ideal_cycle_time planned_production_time : ℚ) : OEEStats :=
  if logs.isEmpty then ⟨0, 0, 100, 0⟩
  else
    let availability := availability_raw failures planned_production_time
    let performance := performance_raw logs failures ideal_cycle_time planned_production_time
    let quality : ℚ := 100
    let oee := availability * performance * quality / 10000
    ⟨round2 (min availability 100), round2 (min performance 100), round2 quality, round2 oee⟩

/-- EfficiencyCalculator.calculate_mtbf. -/
def calculate_mtbf (failures : List FailureLog) (total_runtime_hours : ℚ) : ℚ :=
  if failures.isEmpty ∨ total_runtime_hours = 0 then 0
  else round2 (total_runtime_hours / (failures.length : ℚ))

/-- EfficiencyCalculator.calculate_mttr. -/
def calculate_mttr (failures : List FailureLog) : ℚ :=
  if failures.isEmpty then 0
  else round2 ((total_downtime failures / 60) / (failures.length : ℚ))

/-- Sum of duration_minutes over the rows with the given status
(one group of `logs_df.groupby('status')['duration_minutes'].sum()`). -/
def status_time (logs : List StatusLog) (s : String) : ℚ :=
  ((logs.filter (fun r => r.status == s)).map (fun r => r.duration_minutes)).sum

/-- EfficiencyCalculator.get_status_distribution, as the association list
status ↦ rounded percentage over the distinct statuses present. -/
def get_status_distribution (logs : List StatusLog) : List (String × ℚ) :=
  if logs.isEmpty then []
  else if total_time logs = 0 then []
  else
    ((logs.map (fun r => r.status)).dedup).map
      (fun s => (s, round2 (status_time logs s / total_time logs * 100)))

/-! ### Properties of round-half-to-even -/

theorem rhe_of_fract_lt {q : ℚ} (h : q - ⌊q⌋ < 1/2) : rhe q = ⌊q⌋ := by
  have hne : q - ⌊q⌋ ≠ 1/2 := ne_of_lt h
  rw [rhe, if_neg hne, round_eq, Int.floor_eq_iff]
  constructor
  · have := Int.floor_le q
    linarith
  · linarith

theorem rhe_of_fract_gt {q : ℚ} (h : 1/2 < q - ⌊q⌋) : rhe q = ⌊q⌋ + 1 := by
  have hne : q - ⌊q⌋ ≠ 1/2 := ne_of_gt h
  rw [rhe, if_neg hne, round_eq, Int.floor_eq_iff]
  have h1 : q < ⌊q⌋ + 1 := Int.lt_floor_add_one q
  constructor
  · push_cast
    linarith
  · push_cast
    linarith

theorem rhe_bounds (q : ℚ) : ⌊q⌋ ≤ rhe q ∧ rhe q ≤ ⌊q⌋ + 1 := by
  rcases lt_trichotomy (q - ⌊q⌋) (1/2) with h | h | h
  · rw [rhe_of_fract_lt h]
    omega
  · rw [rhe, if_pos h]
    split <;> omega
  · rw [rhe_of_fract_gt h]
    omega

theorem rhe_mono {p q : ℚ} (h : p ≤ q) : rhe p ≤ rhe q := by
  have hf : ⌊p⌋ ≤ ⌊q⌋ := Int.floor_le_floor h
  rcases eq_or_lt_of_le hf with he | hlt
  · rcases lt_trichotomy (p - ⌊p⌋) (1/2) with hp | hp | hp
    · rw [rhe_of_fract_lt hp]
      have := (rhe_bounds q).1
      omega
    · have hq : 1/2 ≤ q - ⌊q⌋ := by
        rw [← he]
        linarith
      rcases eq_or_lt_of_le hq with hq2 | hq2
      · have : p = q := by
          have : (⌊p⌋ : ℚ) = (⌊q⌋ : ℚ) := by exact_mod_cast he
          linarith
        rw [this]
      · rw [rhe_of_fract_gt hq2]
        have := (rhe_bounds p).2
        omega
    · have hq : 1/2 < q - ⌊q⌋ := by
        rw [← he]
        linarith
      rw [rhe_of_fract_gt hp, rhe_of_fract_gt hq, he]
  · have h1 := (rhe_bounds p).2
    have h2 := (rhe_bounds q).1
    omega

theorem rhe_err (q : ℚ) : |(rhe q : ℚ) - q| ≤ 1/2 := by
  have hfl := Int.floor_le q
  have hfu := Int.lt_floor_add_one q
  rcases lt_trichotomy (q - ⌊q⌋) (1/2) with h | h | h
  · rw [rhe_of_fract_lt h, abs_le]
    constructor <;> linarith
  · rw [rhe, if_pos h, abs_le]
    split <;> push_cast <;> constructor <;> linarith
  · rw [rhe_of_fract_gt h, abs_le]
    push_cast
    constructor <;> linarith

theorem rhe_intCast (n : ℤ) : rhe (n : ℚ) = n := by
  have h : (n : ℚ) - ⌊(n : ℚ)⌋ < 1/2 := by
    rw [Int.floor_intCast]
    norm_num
  rw [rhe_of_fract_lt h, Int.floor_intCast]

theorem round2_mono {p q : ℚ} (h : p ≤ q) : round2 p ≤ round2 q := by
  unfold round2
  have := rhe_mono (by linarith : p * 100 ≤ q * 100)
  have : (rhe (p * 100) : ℚ) ≤ (rhe (q * 100) : ℚ) := by exact_mod_cast this
  linarith

theorem round2_err (q : ℚ) : |round2 q - q| ≤ 1/200 := by
  unfold round2
  have h := rhe_err (q * 100)
  rw [abs_le] at h ⊢
  constructor <;> [linarith [h.1]; linarith [h.2]]

theorem round2_intCast (n : ℤ) : round2 (n : ℚ) = n := by
  unfold round2
  have : (n : ℚ) * 100 = ((n * 100 : ℤ) : ℚ) := by push_cast; ring
  rw [this, rhe_intCast]
  push_cast
  ring

theorem round2_zero : round2 0 = 0 := by
  have := round2_intCast 0
  simpa using this

theorem round2_nonneg {q : ℚ} (h : 0 ≤ q) : 0 ≤ round2 q := by
  have := round2_mono h
  rwa [round2_zero] at this

theorem round2_le_hundred {q : ℚ} (h : q ≤ 100) : round2 q ≤ 100 := by
  have h1 := round2_mono h
  have h2 : round2 (100 : ℚ) = 100 := by
    have := round2_intCast 100
    simpa using this
  rwa [h2] at h1

/-! ### Decomposition lemmas for the aggregation sums -/

theorem total_time_cons (r : StatusLog) (l : List StatusLog) :
    total_time (r :: l) = r.duration_minutes + total_time l := by
  simp [total_time]

theorem running_time_cons (r : StatusLog) (l : List StatusLog) :
    running_time (r :: l) =
      (if r.status = "RUNNING" then r.duration_minutes else 0) + running_time l := by
  by_cases h : r.status = "RUNNING" <;> simp [running_time, List.filter_cons, h]

theorem idle_time_cons (r : StatusLog) (l : List StatusLog) :
    idle_time (r :: l) =
      (if r.status = "IDLE" then r.duration_minutes else 0) + idle_time l := by
  by_cases h : r.status = "IDLE" <;> simp [idle_time, List.filter_cons, h]

theorem downtime_time_cons (r : StatusLog) (l : List StatusLog) :
    downtime_time (r :: l) =
      (if r.status = "FAILED" ∨ r.status = "MAINTENANCE" then r.duration_minutes else 0) +
        downtime_time l := by
  by_cases h1 : r.status = "FAILED"
  · simp [downtime_time, List.filter_cons, h1]
  · by_cases h2 : r.status = "MAINTENANCE" <;>
      simp [downtime_time, List.filter_cons, h1, h2]

theorem status_time_cons (r : StatusLog) (l : List StatusLog) (s : String) :
    status_time (r :: l) s =
      (if r.status = s then r.duration_minutes else 0) + status_time l s := by
  by_cases h : r.status = s <;> simp [status_time, List.filter_cons, h]

theorem running_production_cons (r : StatusLog) (l : List StatusLog) :
    running_production (r :: l) =
      (if r.status = "RUNNING" then r.production_count else 0) + running_production l := by
  by_cases h : r.status = "RUNNING" <;> simp [running_production, List.filter_cons, h]

/-- Under the four-status hypothesis every row lands in exactly one of the
three numerator buckets, so the buckets partition the total. -/
theorem parts_sum_to_total (logs : List StatusLog)
    (hst : ∀ r ∈ logs,
      r.status ∈ (["RUNNING", "IDLE", "FAILED", "MAINTENANCE"] : List String)) :
    running_time logs + idle_time logs + downtime_time logs = total_time logs := by
  induction logs with
  | nil => simp [running_time, idle_time, downtime_time, total_time]
  | cons r l ih =>
    have hr := hst r (by simp)
    have hl : ∀ x ∈ l,
        x.status ∈ (["RUNNING", "IDLE", "FAILED", "MAINTENANCE"] : List String) :=
      fun x hx => hst x (by simp [hx])
    have ihl := ih hl
    simp only [List.mem_cons, List.mem_singleton, List.not_mem_nil, or_false] at hr
    rw [running_time_cons, idle_time_cons, downtime_time_cons, total_time_cons]
    rcases hr with h | h | h | h <;> simp [h] <;> linarith

theorem sum_map_add {α : Type} (l : List α) (f g : α → ℚ) :
    (l.map (fun x => f x + g x)).sum = (l.map f).sum + (l.map g).sum := by
  induction l with
  | nil => simp
  | cons a t ih =>
    simp only [List.map_cons, List.sum_cons, ih]
    ring

theorem sum_if_not_mem (keys : List String) (a : String) (d : ℚ) (ha : a ∉ keys) :
    (keys.map (fun k => if a = k then d else 0)).sum = 0 := by
  induction keys with
  | nil => simp
  | cons k ks ih =>
    have hak : a ≠ k := fun h => ha (by simp [h])
    have haks : a ∉ ks := fun h => ha (by simp [h])
    simp [hak, ih haks]

theorem sum_if_mem (keys : List String) (a : String) (d : ℚ)
    (hnd : keys.Nodup) (ha : a ∈ keys) :
    (keys.map (fun k => if a = k then d else 0)).sum = d := by
  induction keys with
  | nil => cases ha
  | cons k ks ih =>
    rcases List.mem_cons.mp ha with h | h
    · have hnot : a ∉ ks := by
        rw [h]
        exact (List.nodup_cons.mp hnd).1
      simp [h, sum_if_not_mem ks k d (h ▸ hnot)]
    · have hak : a ≠ k := by
        intro he
        exact (List.nodup_cons.mp hnd).1 (he ▸ h)
      simp [hak, ih (List.nodup_cons.mp hnd).2 h]

/-- Summing the per-status totals over any duplicate-free list of keys that
covers every status present recovers the grand total. -/
theorem sum_status_time (logs : List StatusLog) (keys : List String)
    (hnd : keys.Nodup) (hsub : ∀ r ∈ logs, r.status ∈ keys) :
    (keys.map (fun s => status_time logs s)).sum = total_time logs := by
  induction logs with
  | nil =>
    rw [List.sum_eq_zero]
    · simp [total_time]
    · intro x hx
      rcases List.mem_map.mp hx with ⟨s, _, hs⟩
      simp [status_time, ← hs]
  | cons r l ih =>
    have hrl : ∀ x ∈ l, x.status ∈ keys := fun x hx => hsub x (by simp [hx])
    have hr : r.status ∈ keys := hsub r (by simp)
    have hfun : (fun s => status_time (r :: l) s) =
        fun s => (if r.status = s then r.duration_minutes else 0) + status_time l s :=
      funext (fun s => status_time_cons r l s)
    have heq : (keys.map (fun s => status_time (r :: l) s)).sum =
        (keys.map (fun s => (if r.status = s then r.duration_minutes else 0))).sum +
        (keys.map (fun s => status_time l s)).sum := by
      rw [hfun, sum_map_add]
    rw [heq, sum_if_mem keys r.status r.duration_minutes hnd hr, ih hrl, total_time_cons]

/-! ### Concrete example data used by the claims -/

/-- The spec's example 1: one RUNNING row of 100 minutes, one IDLE row of
50 minutes. -/
def exLogsPct : List StatusLog :=
  [⟨"M1", "RUNNING", "2024-01-01 08:00:00", 100, 0, ""⟩,
   ⟨"M1", "IDLE", "2024-01-01 10:00:00", 50, 0, ""⟩]

/-- The spec's OEE example: one RUNNING row, 120 minutes, production 100. -/
def exLogsOee : List StatusLog :=
  [⟨"M1", "RUNNING", "2024-01-01 08:00:00", 120, 100, ""⟩]

/-- The spec's OEE example: one failure with 30 minutes of downtime. -/
def exFailsOee : List FailureLog :=
  [⟨"M1", "mechanical", "2024-01-01 09:00:00", 30, ""⟩]

/-! ### Claim theorems -/

/-- C1: whenever every entry's status lies in {RUNNING, IDLE, FAILED,
MAINTENANCE}, durations are non-negative and the total duration is positive,
the running, idle and downtime percentages sum to 100; on the empty
collection each of the three functions returns 0 (so the sum is 0). -/
theorem percentages_sum_to_hundred (logs : List StatusLog)
    (hst : ∀ r ∈ logs,
      r.status ∈ (["RUNNING", "IDLE", "FAILED", "MAINTENANCE"] : List String))
    (hdur : ∀ r ∈ logs, 0 ≤ r.duration_minutes)
    (htot : 0 < total_time logs) :
    calculate_running_time_percentage logs + calculate_idle_time_percentage logs +
      calculate_downtime_percentage logs = 100 ∧
    calculate_running_time_percentage [] = 0 ∧
    calculate_idle_time_percentage [] = 0 ∧
    calculate_downtime_percentage [] = 0 := by
  refine ⟨?_, by simp [calculate_running_time_percentage],
    by simp [calculate_idle_time_percentage], by simp [calculate_downtime_percentage]⟩
  cases logs with
  | nil => simp [total_time] at htot
  | cons r l =>
    have hsum := parts_sum_to_total (r :: l) hst
    have hne : total_time (r :: l) ≠ 0 := ne_of_gt htot
    simp only [calculate_running_time_percentage, calculate_idle_time_percentage,
      calculate_downtime_percentage, List.isEmpty_cons, Bool.false_eq_true,
      if_false, if_neg hne]
    field_simp
    linarith

/-- Witness for C1 at the spec's example input. -/
theorem percentages_sum_to_hundred_witness :
    calculate_running_time_percentage exLogsPct + calculate_idle_time_percentage exLogsPct +
      calculate_downtime_percentage exLogsPct = 100 ∧
    calculate_running_time_percentage [] = 0 ∧
    calculate_idle_time_percentage [] = 0 ∧
    calculate_downtime_percentage [] = 0 :=
  percentages_sum_to_hundred exLogsPct (by decide) (by decide)
    (by norm_num [total_time, exLogsPct])

/-- C2 counterexample: the percentage functions do not round to two decimal
places — on the spec's example input the running percentage is 200/3, not
66.67, and the idle percentage is 100/3, not 33.33. -/
theorem percentages_not_rounded_counterexample :
    calculate_running_time_percentage exLogsPct ≠ 6667/100 ∧
    calculate_idle_time_percentage exLogsPct ≠ 3333/100 := by
  constructor
  · simp [calculate_running_time_percentage, running_time, total_time, exLogsPct,
      List.filter_cons]
    norm_num
  · simp [calculate_idle_time_percentage, idle_time, total_time, exLogsPct,
      List.filter_cons]
    norm_num

/-- C2 (amended): the three percentage functions return the exact unrounded
ratio times 100; on the spec's example input they return 200/3 (≈ 66.67),
100/3 (≈ 33.33) and 0. -/
theorem percentages_exact_values :
    calculate_running_time_percentage exLogsPct = 200/3 ∧
    calculate_idle_time_percentage exLogsPct = 100/3 ∧
    calculate_downtime_percentage exLogsPct = 0 := by
  refine ⟨?_, ?_, ?_⟩ <;>
    · simp [calculate_running_time_percentage, calculate_idle_time_percentage,
        calculate_downtime_percentage, running_time, idle_time, downtime_time,
        total_time, exLogsPct, List.filter_cons]
      try norm_num

/-- C3 counterexample: at the spec's own OEE example the returned oee field
(20.83) is not availability × performance × quality / 10000 computed from the
returned (rounded) fields, which is 93.75 × 22.22 × 100 / 10000 = 20.83125. -/
theorem oee_not_product_of_returned_fields :
    (calculate_oee exLogsOee exFailsOee 1 480).oee ≠
      (calculate_oee exLogsOee exFailsOee 1 480).availability *
      (calculate_oee exLogsOee exFailsOee 1 480).performance *
      (calculate_oee exLogsOee exFailsOee 1 480).quality / 10000 := by
  simp [calculate_oee, availability_raw, performance_raw, total_downtime,
    running_production, exLogsOee, exFailsOee, List.filter_cons]
  norm_num [round2, rhe, round_eq]

/-- C3 (amended): the oee field is the rounding of availability ×
performance × quality / 10000 computed from the raw (pre-cap, pre-round)
availability and performance; at the spec's example the returned structure is
availability 93.75, performance 22.22, quality 100, oee 20.83. -/
theorem oee_product_of_raw_factors (logs : List StatusLog) (failures : List FailureLog)
    (ideal_cycle_time planned_production_time : ℚ) (hne : logs ≠ []) :
    (calculate_oee logs failures ideal_cycle_time planned_production_time).oee =
      round2 (availability_raw failures planned_production_time *
        performance_raw logs failures ideal_cycle_time planned_production_time *
        100 / 10000) ∧
    calculate_oee exLogsOee exFailsOee 1 480 = ⟨375/4, 1111/50, 100, 2083/100⟩ := by
  constructor
  · cases logs with
    | nil => exact absurd rfl hne
    | cons r l => simp [calculate_oee]
  · simp [calculate_oee, availability_raw, performance_raw, total_downtime,
      running_production, exLogsOee, exFailsOee, List.filter_cons]
    norm_num [round2, rhe, round_eq]

/-- Witness for C3 (amended) at the spec's example input. -/
theorem oee_product_of_raw_factors_witness :
    (calculate_oee exLogsOee exFailsOee 1 480).oee =
      round2 (availability_raw exFailsOee 480 *
        performance_raw exLogsOee exFailsOee 1 480 * 100 / 10000) ∧
    calculate_oee exLogsOee exFailsOee 1 480 = ⟨375/4, 1111/50, 100, 2083/100⟩ :=
  oee_product_of_raw_factors exLogsOee exFailsOee 1 480 (by decide)

theorem running_production_nonneg (logs : List StatusLog)
    (h : ∀ r ∈ logs, 0 ≤ r.production_count) : 0 ≤ running_production logs := by
  induction logs with
  | nil => simp [running_production]
  | cons r l ih =>
    have hr := h r (by simp)
    have hl := ih (fun x hx => h x (by simp [hx]))
    rw [running_production_cons]
    split <;> omega

/-- Example input for C4: summed failure downtime (600) exceeds the planned
production time (480), driving availability to −25. -/
def exLogsRun : List StatusLog :=
  [⟨"M1", "RUNNING", "2024-01-01 08:00:00", 10, 0, ""⟩]

/-- Example input for C4: one failure with 600 minutes of downtime. -/
def exFailsBig : List FailureLog :=
  [⟨"M1", "overload", "2024-01-01 09:00:00", 600, ""⟩]

/-- C4 counterexample: with 600 minutes of summed downtime against 480
planned minutes, calculate_oee returns availability −25, below zero. -/
theorem oee_availability_negative :
    (calculate_oee exLogsRun exFailsBig 1 480).availability = -25 ∧
    (calculate_oee exLogsRun exFailsBig 1 480).availability < 0 := by
  have h : (calculate_oee exLogsRun exFailsBig 1 480).availability = -25 := by
    simp [calculate_oee, availability_raw, total_downtime, exLogsRun, exFailsBig]
    norm_num [round2, rhe, round_eq]
  exact ⟨h, by rw [h]; norm_num⟩

/-- C4 (amended): for a non-empty log collection with non-negative
production counts and any failure collection, availability and performance
are each clamped to at most 100 and performance is non-negative; availability
however is not clamped below and can be negative when the summed downtime
exceeds the planned production time. -/
theorem oee_clamped_above (logs : List StatusLog) (failures : List FailureLog)
    (ideal_cycle_time planned_production_time : ℚ)
    (hne : logs ≠ []) (hprod : ∀ r ∈ logs, 0 ≤ r.production_count) :
    (calculate_oee logs failures ideal_cycle_time planned_production_time).availability ≤ 100 ∧
    (calculate_oee logs failures ideal_cycle_time planned_production_time).performance ≤ 100 ∧
    0 ≤ (calculate_oee logs failures ideal_cycle_time planned_production_time).performance := by
  have hperf : 0 ≤ performance_raw logs failures ideal_cycle_time planned_production_time := by
    have hrp : (0 : ℚ) ≤ (running_production logs : ℚ) := by
      exact_mod_cast running_production_nonneg logs hprod
    simp only [performance_raw]
    by_cases h : (if ideal_cycle_time > 0 then
        (planned_production_time - total_downtime failures) / ideal_cycle_time else 0) > 0
    · rw [if_pos h]
      exact mul_nonneg (div_nonneg hrp (le_of_lt h)) (by norm_num)
    · rw [if_neg h]
  cases logs with
  | nil => exact absurd rfl hne
  | cons r l =>
    refine ⟨?_, ?_, ?_⟩
    · simp only [calculate_oee, List.isEmpty_cons, Bool.false_eq_true, if_false]
      exact round2_le_hundred (min_le_right _ _)
    · simp only [calculate_oee, List.isEmpty_cons, Bool.false_eq_true, if_false]
      exact round2_le_hundred (min_le_right _ _)
    · simp only [calculate_oee, List.isEmpty_cons, Bool.false_eq_true, if_false]
      exact round2_nonneg (le_min hperf (by norm_num))

/-- Witness for C4 (amended) at the spec's OEE example input. -/
theorem oee_clamped_above_witness :
    (calculate_oee exLogsOee exFailsOee 1 480).availability ≤ 100 ∧
    (calculate_oee exLogsOee exFailsOee 1 480).performance ≤ 100 ∧
    0 ≤ (calculate_oee exLogsOee exFailsOee 1 480).performance :=
  oee_clamped_above exLogsOee exFailsOee 1 480 (by decide) (by decide)

/-- Failure frame for C5: one failure row, `date` column absent, as frames
arrive from the store. -/
def exFrame : FailuresDF :=
  ⟨[⟨"M1", "overheat", "2024-01-01 08:00:00", 30, ""⟩], none⟩

/-- C5: calculate_daily_failure_rate does not leave its input collection
unchanged — the assignment `failures_df['date'] = ...` adds a `date` column
to the caller's frame, so after the call the frame differs from the one
passed in. -/
theorem daily_failure_rate_mutates_input :
    ((calculate_daily_failure_rate exFrame).2).dateCol = some ["2024-01-01"] ∧
    (calculate_daily_failure_rate exFrame).2 ≠ exFrame := by decide

/-- Input for C6: a RUNNING row with zero duration but positive
production count. -/
def exLogsZeroRt : List StatusLog :=
  [⟨"M1", "RUNNING", "2024-01-01 08:00:00", 0, 5, ""⟩]

/-- C6 counterexample: on a log collection whose only RUNNING row has zero
duration but production count 5, calculate_productivity returns
total_production 5, not the all-zero structure. -/
theorem productivity_zero_runtime_nonzero_production :
    (calculate_productivity exLogsZeroRt).total_production = 5 ∧
    calculate_productivity exLogsZeroRt ≠ ⟨0, 0, 0, 0⟩ := by
  have h : calculate_productivity exLogsZeroRt = ⟨5, 0, 0, 0⟩ := by
    simp [calculate_productivity, running_production, running_time, exLogsZeroRt,
      List.filter_cons, round2_zero]
  rw [h]
  refine ⟨rfl, ?_⟩
  intro hcon
  cases hcon

/-- C6 (amended): when the total duration of the RUNNING rows is zero,
calculate_productivity returns 0 for production_per_hour,
total_runtime_hours and total_runtime_minutes, while total_production is the
sum of the production counts of the RUNNING rows (0 in particular when there
is no RUNNING row). -/
theorem productivity_zero_runtime (logs : List StatusLog)
    (hrt : running_time logs = 0) :
    (calculate_productivity logs).production_per_hour = 0 ∧
    (calculate_productivity logs).total_runtime_hours = 0 ∧
    (calculate_productivity logs).total_runtime_minutes = 0 ∧
    (calculate_productivity logs).total_production = running_production logs ∧
    (logs.filter (fun r => r.status == "RUNNING") = [] →
      (calculate_productivity logs).total_production = 0) := by
  cases logs with
  | nil =>
    refine ⟨rfl, rfl, rfl, ?_, fun _ => rfl⟩
    simp [calculate_productivity, running_production]
  | cons r l =>
    have hmain : calculate_productivity (r :: l) =
        ⟨running_production (r :: l), round2 0, round2 0, round2 0⟩ := by
      simp only [calculate_productivity, List.isEmpty_cons, Bool.false_eq_true, if_false, hrt]
      norm_num
    rw [hmain]
    refine ⟨round2_zero, round2_zero, round2_zero, rfl, ?_⟩
    intro hfil
    simp [running_production, hfil]

/-- Witness for C6 (amended) at the zero-duration RUNNING input. -/
theorem productivity_zero_runtime_witness :
    (calculate_productivity exLogsZeroRt).production_per_hour = 0 ∧
    (calculate_productivity exLogsZeroRt).total_runtime_hours = 0 ∧
    (calculate_productivity exLogsZeroRt).total_runtime_minutes = 0 ∧
    (calculate_productivity exLogsZeroRt).total_production = running_production exLogsZeroRt ∧
    (exLogsZeroRt.filter (fun r => r.status == "RUNNING") = [] →
      (calculate_productivity exLogsZeroRt).total_production = 0) :=
  productivity_zero_runtime exLogsZeroRt
    (by norm_num [running_time, exLogsZeroRt, List.filter_cons])

/-- C7: on empty input every calculator function returns its documented
default: 0 for the three percentages, the zero statistics structure (and an
unchanged frame) for the daily failure rate, the all-zero productivity
structure, availability 0 / performance 0 / quality 100 / oee 0, 0 for MTBF
and MTTR, and the empty status distribution. -/
theorem empty_input_defaults :
    calculate_running_time_percentage [] = 0 ∧
    calculate_idle_time_percentage [] = 0 ∧
    calculate_downtime_percentage [] = 0 ∧
    (∀ dc : Option (List String),
      calculate_daily_failure_rate ⟨[], dc⟩ = (⟨0, 0, 0, 0⟩, ⟨[], dc⟩)) ∧
    calculate_productivity [] = ⟨0, 0, 0, 0⟩ ∧
    (∀ (failures : List FailureLog) (ict ppt : ℚ),
      calculate_oee [] failures ict ppt = ⟨0, 0, 100, 0⟩) ∧
    (∀ trh : ℚ, calculate_mtbf [] trh = 0) ∧
    calculate_mttr [] = 0 ∧
    get_status_distribution [] = [] := by
  refine ⟨rfl, rfl, rfl, fun dc => rfl, rfl, fun failures ict ppt => rfl, ?_, rfl, rfl⟩
  intro trh
  simp [calculate_mtbf]

/-- One failure; 30 minutes of downtime. -/
def exFailA : List FailureLog := [⟨"M1", "f", "2024-01-01 08:00:00", 30, ""⟩]

/-- Two failures; the same 30 minutes of total downtime split in two. -/
def exFailB : List FailureLog :=
  [⟨"M1", "f", "2024-01-01 08:00:00", 15, ""⟩,
   ⟨"M1", "g", "2024-01-02 08:00:00", 15, ""⟩]

/-- One failure with 0.06 minutes of downtime. -/
def exFailC : List FailureLog := [⟨"M1", "f", "2024-01-01 08:00:00", 6/100, ""⟩]

/-- Two failures with the same 0.06 minutes of total downtime. -/
def exFailD : List FailureLog :=
  [⟨"M1", "f", "2024-01-01 08:00:00", 3/100, ""⟩,
   ⟨"M1", "g", "2024-01-02 08:00:00", 3/100, ""⟩]

/-- C8 counterexample: because both functions round to two decimals,
adding a failure need not strictly decrease them — with runtime 0.001 hours
MTBF is 0.0 for one and for two failures, and with 0.06 total downtime
minutes MTTR is 0.0 for one and for two failures. -/
theorem mtbf_mttr_not_strictly_decreasing :
    exFailA.length < exFailB.length ∧
    calculate_mtbf exFailA (1/1000) = calculate_mtbf exFailB (1/1000) ∧
    exFailC.length < exFailD.length ∧
    total_downtime exFailC = total_downtime exFailD ∧
    calculate_mttr exFailC = calculate_mttr exFailD := by
  refine ⟨by decide, ?_, by decide, ?_, ?_⟩
  · simp [calculate_mtbf, exFailA, exFailB]
    norm_num [round2, rhe, round_eq]
  · norm_num [total_downtime, exFailC, exFailD]
  · simp [calculate_mttr, total_downtime, exFailC, exFailD]
    norm_num [round2, rhe, round_eq]

/-- C8 (amended): MTBF for fixed positive runtime and MTTR for fixed
non-negative total downtime are non-increasing in the failure count (the
pre-rounding quotients strictly decrease, but the two-decimal rounding can
present equal results), and both return 0 on the empty failure collection. -/
theorem mtbf_mttr_antitone (l1 l2 : List FailureLog) (trh : ℚ)
    (h1 : l1 ≠ []) (hlen : l1.length ≤ l2.length) (htrh : 0 < trh)
    (hd0 : 0 ≤ total_downtime l1) (hdeq : total_downtime l1 = total_downtime l2) :
    calculate_mtbf l2 trh ≤ calculate_mtbf l1 trh ∧
    calculate_mttr l2 ≤ calculate_mttr l1 ∧
    calculate_mtbf [] trh = 0 ∧
    calculate_mttr [] = 0 := by
  have hl1pos : 0 < l1.length := List.length_pos.mpr h1
  have h2 : l2 ≠ [] := by
    intro h
    apply h1
    rw [h] at hlen
    have hz : l1.length ≤ 0 := by simpa using hlen
    exact List.eq_nil_of_length_eq_zero (Nat.le_zero.mp hz)
  have h1q : (0 : ℚ) < (l1.length : ℚ) := by exact_mod_cast hl1pos
  have hleq : (l1.length : ℚ) ≤ (l2.length : ℚ) := by exact_mod_cast hlen
  have h2q : (0 : ℚ) < (l2.length : ℚ) := lt_of_lt_of_le h1q hleq
  have e1 : calculate_mtbf l1 trh = round2 (trh / (l1.length : ℚ)) := by
    rw [calculate_mtbf,
      if_neg (not_or.mpr ⟨fun hc => h1 (List.isEmpty_iff.mp hc), ne_of_gt htrh⟩)]
  have e2 : calculate_mtbf l2 trh = round2 (trh / (l2.length : ℚ)) := by
    rw [calculate_mtbf,
      if_neg (not_or.mpr ⟨fun hc => h2 (List.isEmpty_iff.mp hc), ne_of_gt htrh⟩)]
  have e3 : calculate_mttr l1 = round2 ((total_downtime l1 / 60) / (l1.length : ℚ)) := by
    rw [calculate_mttr, if_neg (fun hc => h1 (List.isEmpty_iff.mp hc))]
  have e4 : calculate_mttr l2 = round2 ((total_downtime l2 / 60) / (l2.length : ℚ)) := by
    rw [calculate_mttr, if_neg (fun hc => h2 (List.isEmpty_iff.mp hc))]
  refine ⟨?_, ?_, by simp [calculate_mtbf], rfl⟩
  · rw [e1, e2]
    exact round2_mono (div_le_div_of_nonneg_left htrh.le h1q hleq)
  · rw [e3, e4, ← hdeq]
    exact round2_mono (div_le_div_of_nonneg_left (by linarith) h1q hleq)

/-- Witness for C8 (amended): one failure against two with equal total
downtime 30 minutes, runtime 20 hours. -/
theorem mtbf_mttr_antitone_witness :
    calculate_mtbf exFailB 20 ≤ calculate_mtbf exFailA 20 ∧
    calculate_mttr exFailB ≤ calculate_mttr exFailA ∧
    calculate_mtbf [] 20 = 0 ∧
    calculate_mttr [] = 0 :=
  mtbf_mttr_antitone exFailA exFailB 20 (by decide) (by decide) (by norm_num)
    (by norm_num [total_downtime, exFailA])
    (by norm_num [total_downtime, exFailA, exFailB])

theorem sum_map_mul (l : List String) (f : String → ℚ) (c : ℚ) :
    (l.map (fun x => f x * c)).sum = (l.map f).sum * c := by
  induction l with
  | nil => simp
  | cons a t ih =>
    simp only [List.map_cons, List.sum_cons, ih]
    ring

theorem sum_round2_err (keys : List String) (f : String → ℚ) :
    |(keys.map (fun s => round2 (f s))).sum - (keys.map f).sum| ≤
      (keys.length : ℚ) * (1/200) := by
  induction keys with
  | nil => simp
  | cons k ks ih =>
    simp only [List.map_cons, List.sum_cons, List.length_cons]
    have h1 := round2_err (f k)
    have habs : |(round2 (f k) + (ks.map (fun s => round2 (f s))).sum) -
        (f k + (ks.map f).sum)| ≤
        |round2 (f k) - f k| +
        |(ks.map (fun s => round2 (f s))).sum - (ks.map f).sum| := by
      have he : (round2 (f k) + (ks.map (fun s => round2 (f s))).sum) -
          (f k + (ks.map f).sum) =
          (round2 (f k) - f k) +
          ((ks.map (fun s => round2 (f s))).sum - (ks.map f).sum) := by ring
      rw [he]
      exact abs_add _ _
    have := le_trans habs (add_le_add h1 ih)
    push_cast
    push_cast at this
    linarith

/-- The distinct statuses present in the logs are a duplicate-free list; when
every status is drawn from the five-element vocabulary there are at most
five of them. -/
theorem dedup_status_length_le (logs : List StatusLog)
    (hst : ∀ r ∈ logs,
      r.status ∈ (["RUNNING", "IDLE", "MAINTENANCE", "FAILED", "OFFLINE"] : List String)) :
    ((logs.map (fun r => r.status)).dedup).length ≤ 5 := by
  have hnd : ((logs.map (fun r => r.status)).dedup).Nodup := List.nodup_dedup _
  have hsub : (logs.map (fun r => r.status)).dedup ⊆
      (["RUNNING", "IDLE", "MAINTENANCE", "FAILED", "OFFLINE"] : List String) := by
    intro x hx
    rcases List.mem_map.mp (List.mem_dedup.mp hx) with ⟨r, hr, hxr⟩
    exact hxr ▸ hst r hr
  have := (hnd.subperm hsub).length_le
  simpa using this

/-- C9: for a non-empty log collection over the five-status vocabulary with
non-negative durations and positive total duration, the per-status shares
sum to exactly 100 before rounding, and the independently rounded values of
get_status_distribution sum to 100 within 0.1. -/
theorem status_distribution_sums_to_hundred (logs : List StatusLog)
    (hst : ∀ r ∈ logs,
      r.status ∈ (["RUNNING", "IDLE", "MAINTENANCE", "FAILED", "OFFLINE"] : List String))
    (hdur : ∀ r ∈ logs, 0 ≤ r.duration_minutes)
    (htot : 0 < total_time logs) :
    (((logs.map (fun r => r.status)).dedup).map
      (fun s => status_time logs s / total_time logs * 100)).sum = 100 ∧
    |((get_status_distribution logs).map (fun p => p.2)).sum - 100| ≤ 1/10 := by
  have hT : total_time logs ≠ 0 := ne_of_gt htot
  have hne : logs ≠ [] := by
    intro h
    rw [h] at htot
    simp [total_time] at htot
  have hcover : ∀ r ∈ logs, r.status ∈ (logs.map (fun r => r.status)).dedup :=
    fun r hr => List.mem_dedup.mpr (List.mem_map_of_mem _ hr)
  have hpart := sum_status_time logs ((logs.map (fun r => r.status)).dedup)
    (List.nodup_dedup _) hcover
  have hfun : (fun s => status_time logs s / total_time logs * 100) =
      fun s => status_time logs s * (100 / total_time logs) := by
    funext s
    field_simp
  have hraw : (((logs.map (fun r => r.status)).dedup).map
      (fun s => status_time logs s / total_time logs * 100)).sum = 100 := by
    rw [hfun, sum_map_mul, hpart]
    field_simp
  refine ⟨hraw, ?_⟩
  have hdist : get_status_distribution logs =
      ((logs.map (fun r => r.status)).dedup).map
        (fun s => (s, round2 (status_time logs s / total_time logs * 100))) := by
    rw [get_status_distribution, if_neg (fun hc => hne (List.isEmpty_iff.mp hc)), if_neg hT]
  have hvals : ((get_status_distribution logs).map (fun p => p.2)).sum =
      (((logs.map (fun r => r.status)).dedup).map
        (fun s => round2 (status_time logs s / total_time logs * 100))).sum := by
    rw [hdist, List.map_map]
    rfl
  have herr := sum_round2_err ((logs.map (fun r => r.status)).dedup)
    (fun s => status_time logs s / total_time logs * 100)
  rw [hraw] at herr
  have hlen := dedup_status_length_le logs hst
  have hlenq : (((logs.map (fun r => r.status)).dedup).length : ℚ) ≤ 5 := by
    exact_mod_cast hlen
  rw [hvals]
  have hb : (((logs.map (fun r => r.status)).dedup).length : ℚ) * (1/200) ≤ 1/10 := by
    linarith
  exact le_trans herr hb

/-- Witness for C9 at the spec's example input. -/
theorem status_distribution_sums_to_hundred_witness :
    (((exLogsPct.map (fun r => r.status)).dedup).map
      (fun s => status_time exLogsPct s / total_time exLogsPct * 100)).sum = 100 ∧
    |((get_status_distribution exLogsPct).map (fun p => p.2)).sum - 100| ≤ 1/10 :=
  status_distribution_sums_to_hundred exLogsPct (by decide) (by decide)
    (by norm_num [total_time, exLogsPct])

/-- C10: with positive total duration the keys of get_status_distribution
are exactly the distinct statuses occurring in the input (whatever strings
they are), each mapped to the rounded share of the total duration, and a row
whose status is outside {RUNNING, IDLE, FAILED, MAINTENANCE} adds to the
total-duration denominator of the three percentage functions while adding to
none of their numerators. -/
theorem status_distribution_keys_exact (logs : List StatusLog) (r : StatusLog)
    (htot : 0 < total_time logs)
    (hr : r.status ∉ (["RUNNING", "IDLE", "FAILED", "MAINTENANCE"] : List String)) :
    (get_status_distribution logs).map (fun p => p.1) =
      (logs.map (fun x => x.status)).dedup ∧
    (∀ p ∈ get_status_distribution logs,
      p.2 = round2 (status_time logs p.1 / total_time logs * 100)) ∧
    running_time (logs ++ [r]) = running_time logs ∧
    idle_time (logs ++ [r]) = idle_time logs ∧
    downtime_time (logs ++ [r]) = downtime_time logs ∧
    total_time (logs ++ [r]) = total_time logs + r.duration_minutes := by
  have hT : total_time logs ≠ 0 := ne_of_gt htot
  have hne : logs ≠ [] := by
    intro h
    rw [h] at htot
    simp [total_time] at htot
  have hdist : get_status_distribution logs =
      ((logs.map (fun x => x.status)).dedup).map
        (fun s => (s, round2 (status_time logs s / total_time logs * 100))) := by
    rw [get_status_distribution, if_neg (fun hc => hne (List.isEmpty_iff.mp hc)), if_neg hT]
  obtain ⟨hr1, hr2, hr3, hr4⟩ :
      r.status ≠ "RUNNING" ∧ r.status ≠ "IDLE" ∧
      r.status ≠ "FAILED" ∧ r.status ≠ "MAINTENANCE" := by
    simpa using hr
  refine ⟨?_, ?_, ?_, ?_, ?_, ?_⟩
  · rw [hdist, List.map_map]
    exact List.map_id _
  · intro p hp
    rw [hdist] at hp
    rcases List.mem_map.mp hp with ⟨s, _, hps⟩
    rw [← hps]
  · simp [running_time, List.filter_append, List.filter_cons, hr1]
  · simp [idle_time, List.filter_append, List.filter_cons, hr2]
  · simp [downtime_time, List.filter_append, List.filter_cons, hr3, hr4]
  · simp [total_time]

/-- Witness for C10: the example logs extended by a row with the
undocumented status WARMUP. -/
theorem status_distribution_keys_exact_witness :
    (get_status_distribution exLogsPct).map (fun p => p.1) =
      (exLogsPct.map (fun x => x.status)).dedup ∧
    (∀ p ∈ get_status_distribution exLogsPct,
      p.2 = round2 (status_time exLogsPct p.1 / total_time exLogsPct * 100)) ∧
    running_time (exLogsPct ++ [⟨"M1", "WARMUP", "2024-01-01 12:00:00", 25, 0, ""⟩]) =
      running_time exLogsPct ∧
    idle_time (exLogsPct ++ [⟨"M1", "WARMUP", "2024-01-01 12:00:00", 25, 0, ""⟩]) =
      idle_time exLogsPct ∧
    downtime_time (exLogsPct ++ [⟨"M1", "WARMUP", "2024-01-01 12:00:00", 25, 0, ""⟩]) =
      downtime_time exLogsPct ∧
    total_time (exLogsPct ++ [⟨"M1", "WARMUP", "2024-01-01 12:00:00", 25, 0, ""⟩]) =
      total_time exLogsPct +
        (⟨"M1", "WARMUP", "2024-01-01 12:00:00", 25, 0, ""⟩ : StatusLog).duration_minutes :=
  status_distribution_keys_exact exLogsPct ⟨"M1", "WARMUP", "2024-01-01 12:00:00", 25, 0, ""⟩
    (by norm_num [total_time, exLogsPct]) (by decide)

end MachineTracker
